import Mathlib

/-!
Verification of the update-distribution and storage-synchronization
subsystem of the Daybound browser extension.

The definitions below are a shallow embedding of the TypeScript/JavaScript
sources:

* `src/utils/otaConfig.ts` — `compareSemver`
* `src/utils/storageBridge.ts` — `StorageBridgeClient`, `detectStorageStrategy`
* the shell router script (shell.js with OTA routing) — `isInBackoff`,
  `recordFailure`, `clearFailures`, the routing decision, the `settle`
  state machine and the bridge host message listener
* the persistent-state hook — `usePersistentState`, `storageGet`,
  `storageSet`, `ensureBridge`
* `src/app/components/OtaUpdater.tsx` — the success path of `runCheck`

JavaScript values stored through `JSON.stringify`/`JSON.parse` are modelled
by the inductive `JsValue` (null, booleans, integral numbers and strings;
arrays/objects and non-integral numbers are outside the modelled universe).
Machine integers do not overflow in any modelled computation, so `Nat`/`Int`
are used directly.  Real time is abstracted: functions that read
`Date.now()` take the current epoch-millisecond instant as an argument, and
timer races (the 500 ms handshake timeout, the 800 ms iframe timer) are
abstracted to the order in which their events are processed.
-/

namespace Daybound

/-- Model of the JSON-serializable values that flow through the storage
layer: `null`, booleans, integral numbers and strings. -/
inductive JsValue : Type where
  | null : JsValue
  | bool : Bool → JsValue
  | num : Int → JsValue
  | str : String → JsValue
  deriving DecidableEq, Repr

/-- Map a decimal digit (0–9) to its character. -/
def digitChar (d : Nat) : Char :=
  if d = 0 then '0'
  else if d = 1 then '1'
  else if d = 2 then '2'
  else if d = 3 then '3'
  else if d = 4 then '4'
  else if d = 5 then '5'
  else if d = 6 then '6'
  else if d = 7 then '7'
  else if d = 8 then '8'
  else '9'

/-- Decimal digits of `n`, most significant first; `[]` for `n = 0`.
Fuel-based so that the kernel can evaluate it. -/
def natDigitsAux : Nat → Nat → List Char
  | 0, _ => []
  | fuel + 1, n =>
    if n = 0 then []
    else natDigitsAux fuel (n / 10) ++ [digitChar (n % 10)]

/-- Decimal representation of a natural number. -/
def natToChars (n : Nat) : List Char :=
  if n = 0 then ['0'] else natDigitsAux (n + 1) n

/-- Decimal representation of an integer, as printed by `JSON.stringify`
for an integral JavaScript number. -/
def intToChars (i : Int) : List Char :=
  if i < 0 then '-' :: natToChars i.natAbs else natToChars i.toNat

/-- Value of a list of decimal digit characters (`parseInt`-style fold). -/
def charsToNat (cs : List Char) : Nat :=
  cs.foldl (fun a c => a * 10 + (c.toNat - 48)) 0

/-- Parse an optionally `-`-signed decimal numeral, the number grammar
`JSON.parse` accepts restricted to integers (no fractions/exponents, which
the modelled code never stores). -/
def parseIntChars (cs : List Char) : Option Int :=
  match cs with
  | [] => none
  | c :: rest =>
    if c = '-' then
      if !rest.isEmpty && rest.all Char.isDigit then
        some (-(charsToNat rest : Int))
      else none
    else if (c :: rest).all Char.isDigit then some ((charsToNat (c :: rest) : Int))
    else none

/-- JSON string-escaping of one character (quote and backslash; control
characters do not occur in the modelled data). -/
def escapeChar (c : Char) : List Char :=
  if c = '"' then ['\\', '"']
  else if c = '\\' then ['\\', '\\']
  else [c]

/-- JSON string-escaping of a character list. -/
def escapeStr (cs : List Char) : List Char :=
  cs.foldr (fun c acc => escapeChar c ++ acc) []

/-- Decoder state machine for JSON string escapes: the `Bool` records
whether the previous character was an unprocessed backslash. -/
def unescapeAux : Bool → List Char → Option (List Char)
  | false, [] => some []
  | false, c :: rest =>
    if c = '\\' then unescapeAux true rest
    else if c = '"' then none
    else (unescapeAux false rest).map (fun l => c :: l)
  | true, [] => none
  | true, d :: rest =>
    if d = '"' ∨ d = '\\' then (unescapeAux false rest).map (fun l => d :: l)
    else none

/-- Inverse of `escapeStr`: decode backslash escapes, failing on a raw
quote or a dangling/unknown escape (where `JSON.parse` would throw). -/
def unescapeStr (cs : List Char) : Option (List Char) :=
  unescapeAux false cs

/-- Embeds `JSON.stringify` on the modelled value universe (character list). -/
def stringifyChars : JsValue → List Char
  | .null => "null".data
  | .bool true => "true".data
  | .bool false => "false".data
  | .num i => intToChars i
  | .str s => '"' :: (escapeStr s.data ++ ['"'])

/-- Embeds `JSON.stringify` on the modelled value universe. -/
def stringify (v : JsValue) : String :=
  String.mk (stringifyChars v)

/-- Parse a JSON string body (everything after the opening quote): the
last character must be the closing quote and the interior must unescape. -/
def parseQuoted (rest : List Char) : Option JsValue :=
  if rest.getLast? = some '"' then
    (unescapeStr rest.dropLast).map (fun l => JsValue.str (String.mk l))
  else none

/-- Parse a JSON value that is neither a keyword: a quoted string or a
number; anything else fails. -/
def parseTail (cs : List Char) : Option JsValue :=
  match cs with
  | [] => none
  | c :: rest =>
    if c = '"' then parseQuoted rest
    else (parseIntChars (c :: rest)).map JsValue.num

/-- Embeds `JSON.parse` on the modelled value universe; `none` models a thrown
`SyntaxError`. -/
def parseChars (cs : List Char) : Option JsValue :=
  if cs = "null".data then some JsValue.null
  else if cs = "true".data then some (JsValue.bool true)
  else if cs = "false".data then some (JsValue.bool false)
  else parseTail cs

/-- Embeds `JSON.parse` on strings. -/
def parse (s : String) : Option JsValue :=
  parseChars s.data

theorem charsToNat_append_digit (cs : List Char) (c : Char) :
    charsToNat (cs ++ [c]) = charsToNat cs * 10 + (c.toNat - 48) := by
  simp [charsToNat, List.foldl_append]

theorem digitChar_toNat (d : Nat) (h : d < 10) : (digitChar d).toNat = 48 + d := by
  interval_cases d <;> rfl

theorem digitChar_isDigit (d : Nat) (h : d < 10) : (digitChar d).isDigit = true := by
  interval_cases d <;> rfl

theorem natDigitsAux_spec (fuel : Nat) : ∀ n, n ≤ fuel →
    charsToNat (natDigitsAux fuel n) = n ∧
      (natDigitsAux fuel n).all Char.isDigit = true ∧
      (n ≠ 0 → natDigitsAux fuel n ≠ []) := by
  induction fuel with
  | zero =>
    intro n hn
    interval_cases n
    simp [natDigitsAux, charsToNat]
  | succ fuel ih =>
    intro n hn
    by_cases h0 : n = 0
    · subst h0
      simp [natDigitsAux, charsToNat]
    · have hdiv : n / 10 ≤ fuel := by omega
      obtain ⟨h1, h2, _⟩ := ih (n / 10) hdiv
      have hmod : n % 10 < 10 := Nat.mod_lt _ (by omega)
      refine ⟨?_, ?_, ?_⟩
      · rw [natDigitsAux, if_neg h0, charsToNat_append_digit, h1,
          digitChar_toNat _ hmod]
        omega
      · rw [natDigitsAux, if_neg h0]
        simp only [List.all_append, Bool.and_eq_true]
        exact ⟨h2, by simp [digitChar_isDigit _ hmod]⟩
      · intro _
        rw [natDigitsAux, if_neg h0]
        simp

theorem natToChars_spec (n : Nat) :
    charsToNat (natToChars n) = n ∧ (natToChars n).all Char.isDigit = true ∧
      natToChars n ≠ [] := by
  by_cases h0 : n = 0
  · subst h0
    refine ⟨rfl, rfl, by simp [natToChars]⟩
  · obtain ⟨h1, h2, h3⟩ := natDigitsAux_spec (n + 1) n (by omega)
    exact ⟨by rwa [natToChars, if_neg h0], by rwa [natToChars, if_neg h0],
      by rw [natToChars, if_neg h0]; exact h3 h0⟩

theorem parseIntChars_intToChars (i : Int) :
    parseIntChars (intToChars i) = some i := by
  by_cases hneg : i < 0
  · rw [intToChars, if_pos hneg]
    obtain ⟨h1, h2, h3⟩ := natToChars_spec i.natAbs
    have hne : (natToChars i.natAbs).isEmpty = false := by
      cases h : natToChars i.natAbs with
      | nil => exact absurd h h3
      | cons a l => rfl
    rw [parseIntChars, if_pos rfl, hne, h2]
    simp only [Bool.not_false, Bool.and_self, if_true, h1, Option.some.injEq]
    omega
  · rw [intToChars, if_neg hneg]
    obtain ⟨h1, h2, h3⟩ := natToChars_spec i.toNat
    cases h : natToChars i.toNat with
    | nil => exact absurd h h3
    | cons a l =>
      rw [h] at h1 h2
      have hda : a.isDigit = true := by
        simp only [List.all_cons, Bool.and_eq_true] at h2
        exact h2.1
      have hdash : ¬ a = '-' := by
        intro he
        rw [he] at hda
        exact absurd hda (by decide)
      rw [parseIntChars, if_neg hdash, h2]
      simp only [if_true, h1, Option.some.injEq]
      omega

theorem intToChars_ne_nil (i : Int) : intToChars i ≠ [] := by
  by_cases hneg : i < 0
  · rw [intToChars, if_pos hneg]
    simp
  · rw [intToChars, if_neg hneg]
    exact (natToChars_spec i.toNat).2.2

theorem intToChars_head_digit_or_dash (i : Int) (c : Char) (rest : List Char)
    (h : intToChars i = c :: rest) : c = '-' ∨ c.isDigit = true := by
  by_cases hneg : i < 0
  · rw [intToChars, if_pos hneg] at h
    exact Or.inl (by injection h with h1 _; exact h1.symm)
  · rw [intToChars, if_neg hneg] at h
    have h2 := (natToChars_spec i.toNat).2.1
    rw [h] at h2
    simp only [List.all_cons, Bool.and_eq_true] at h2
    exact Or.inr h2.1

theorem unescapeStr_escapeStr (cs : List Char) :
    unescapeStr (escapeStr cs) = some cs := by
  rw [unescapeStr]
  induction cs with
  | nil => rfl
  | cons c rest ih =>
    have hstep : escapeStr (c :: rest) = escapeChar c ++ escapeStr rest := by
      simp [escapeStr]
    rw [hstep]
    by_cases hq : c = '"'
    · subst hq
      simp only [escapeChar, if_pos rfl, List.cons_append, List.nil_append]
      simp [unescapeAux, ih]
    · by_cases hbs : c = '\\'
      · subst hbs
        simp only [escapeChar, if_neg (show ¬('\\' = '"') by decide), if_pos rfl,
          List.cons_append, List.nil_append]
        simp [unescapeAux, ih]
      · simp only [escapeChar, if_neg hq, if_neg hbs, List.cons_append,
          List.nil_append]
        simp [unescapeAux, hq, hbs, ih]

theorem cons_ne_of_head_ne {c d : Char} {l m : List Char} (h : ¬ c = d) :
    ¬ (c :: l = d :: m) := by
  intro he
  injection he with h1 _
  exact h h1

theorem parse_stringify (v : JsValue) : parse (stringify v) = some v := by
  cases v with
  | null => rfl
  | bool b => cases b <;> rfl
  | num i =>
    show parseChars (intToChars i) = some (JsValue.num i)
    cases hcs : intToChars i with
    | nil => exact absurd hcs (intToChars_ne_nil i)
    | cons c l =>
      have hcd := intToChars_head_digit_or_dash i c l hcs
      have hhead : ∀ d : Char, ¬ d.isDigit = true → ¬ d = '-' → ∀ m : List Char,
          ¬ (c :: l = d :: m) := by
        intro d hd1 hd2 m he
        injection he with h1 _
        rcases hcd with h | h
        · rw [h1] at h
          exact hd2 h
        · rw [h1] at h
          exact hd1 h
      rw [parseChars, if_neg (hhead 'n' (by decide) (by decide) _),
        if_neg (hhead 't' (by decide) (by decide) _),
        if_neg (hhead 'f' (by decide) (by decide) _)]
      have hcq : ¬ c = '"' := by
        rcases hcd with h | h
        · rw [h]; decide
        · intro he; rw [he] at h; exact absurd h (by decide)
      simp only [parseTail, if_neg hcq]
      rw [← hcs, parseIntChars_intToChars]
      rfl
  | str s =>
    show parseChars ('"' :: (escapeStr s.data ++ ['"'])) = some (JsValue.str s)
    rw [parseChars, if_neg (cons_ne_of_head_ne (by decide)),
      if_neg (cons_ne_of_head_ne (by decide)),
      if_neg (cons_ne_of_head_ne (by decide))]
    simp only [parseTail, if_pos rfl, parseQuoted]
    rw [List.getLast?_concat, List.dropLast_concat, if_pos rfl,
      unescapeStr_escapeStr]
    rfl

theorem stringify_ne_empty (v : JsValue) : stringify v ≠ "" := by
  have hne : stringifyChars v ≠ [] := by
    cases v with
    | null => decide
    | bool b => cases b <;> decide
    | num i => exact intToChars_ne_nil i
    | str s => simp [stringifyChars]
  intro he
  apply hne
  have : (stringify v).data = ("" : String).data := by rw [he]
  simpa [stringify] using this

/-- Lookup in a JavaScript-`Map`/object-style association list (keys are
unique in all reachable states; lookup returns the first binding). -/
def mapGet {α : Type} (l : List (String × α)) (k : String) : Option α :=
  match l with
  | [] => none
  | (k1, v) :: t => if k1 = k then some v else mapGet t k

/-- Embeds `Map.set` / property assignment: replace the binding if the key is
present, else append it. -/
def mapSet {α : Type} (l : List (String × α)) (k : String) (v : α) :
    List (String × α) :=
  match l with
  | [] => [(k, v)]
  | (k1, v1) :: t => if k1 = k then (k, v) :: t else (k1, v1) :: mapSet t k v

/-- Embeds `Map.delete` / `localStorage.removeItem`: drop every binding of `k`. -/
def mapDelete {α : Type} (l : List (String × α)) (k : String) :
    List (String × α) :=
  l.filter (fun p => decide (¬ p.1 = k))

theorem mapGet_mapSet {α : Type} (l : List (String × α)) (k : String) (v : α) :
    mapGet (mapSet l k v) k = some v := by
  induction l with
  | nil => simp [mapGet, mapSet]
  | cons p t ih =>
    obtain ⟨k1, v1⟩ := p
    by_cases h : k1 = k
    · simp [mapSet, if_pos h, mapGet]
    · simp [mapSet, if_neg h, mapGet, if_neg h, ih]

theorem mapGet_mapDelete {α : Type} (l : List (String × α)) (k : String) :
    mapGet (mapDelete l k) k = none := by
  induction l with
  | nil => rfl
  | cons p t ih =>
    obtain ⟨k1, v1⟩ := p
    by_cases h : k1 = k
    · simpa [mapDelete, h] using ih
    · simpa [mapDelete, h, mapGet] using ih

/-- The persisted OTA update state, one optional field per localStorage
key (`daybound_ota_use_remote`, `daybound_ota_remote_version`,
`daybound_ota_fail_count`, `daybound_ota_fail_ts`).  The two counters are
stored as decimal-numeral strings in localStorage; they are modelled
already parsed (`parseInt` of the stored numeral, `getItem(k) || "0"`
becoming `Option.getD 0`). -/
structure OtaStore where
  useRemote : Option String
  remoteVersion : Option String
  failCount : Option Nat
  failTs : Option Nat
  deriving DecidableEq, Repr

/-- A single localStorage write/remove against one of the four OTA keys. -/
inductive FieldOp : Type where
  | setCount : Nat → FieldOp
  | removeCount : FieldOp
  | setTs : Nat → FieldOp
  | removeTs : FieldOp
  | setUseRemote : String → FieldOp
  | removeUseRemote : FieldOp
  | setRemoteVersion : String → FieldOp
  | removeRemoteVersion : FieldOp
  deriving DecidableEq, Repr

def applyOp (s : OtaStore) : FieldOp → OtaStore
  | .setCount n => { s with failCount := some n }
  | .removeCount => { s with failCount := none }
  | .setTs t => { s with failTs := some t }
  | .removeTs => { s with failTs := none }
  | .setUseRemote v => { s with useRemote := some v }
  | .removeUseRemote => { s with useRemote := none }
  | .setRemoteVersion v => { s with remoteVersion := some v }
  | .removeRemoteVersion => { s with remoteVersion := none }

def applyOps (s : OtaStore) (ops : List FieldOp) : OtaStore :=
  ops.foldl applyOp s

/-- Shell router, `isInBackoff()`: returns the decision and the
localStorage writes it performs.  Mirrors:
`count < MAX_FAILURES → false`; elapsed window (`Date.now() - ts >
BACKOFF_MS`) → write `failCount = 0`, return `false`; else `true`.
`now` is the `Date.now()` reading in epoch ms. -/
def isInBackoff (s : OtaStore) (now : Nat) : Bool × List FieldOp :=
  if s.failCount.getD 0 < 3 then (false, [])
  else if (now : Int) - (s.failTs.getD 0 : Int) > 300000 then
    (false, [FieldOp.setCount 0])
  else (true, [])

/-- Shell router, `recordFailure()`: `failCount := count + 1`,
`failTs := Date.now()`. -/
def recordFailureOps (s : OtaStore) (now : Nat) : List FieldOp :=
  [FieldOp.setCount (s.failCount.getD 0 + 1), FieldOp.setTs now]

/-- Shell router, `clearFailures()`: remove both counter keys. -/
def clearFailuresOps : List FieldOp :=
  [FieldOp.removeCount, FieldOp.removeTs]

/-- OtaUpdater `runCheck`, success path after a completed precache:
set `useRemote = "true"`, record the precached version, remove both
failure-tracking keys. -/
def runCheckSuccessOps (version : String) : List FieldOp :=
  [FieldOp.setUseRemote "true", FieldOp.setRemoteVersion version,
    FieldOp.removeCount, FieldOp.removeTs]

/-- Shell router entry decision.  `onLine` models `navigator.onLine`
(`none` = property unavailable, treated as online by
`navigator.onLine !== false`).  Returns `(fastPath, store)`: `true` means
immediate navigation to the bundled `index.html`; the store reflects the
side effect of `isInBackoff` when it runs.  Mirrors the short-circuit
`if (!useRemote || !isOnline || isInBackoff())`. -/
def routeDecision (s : OtaStore) (onLine : Option Bool) (now : Nat) :
    Bool × OtaStore :=
  if ¬ (s.useRemote = some "true") then (true, s)
  else if onLine = some false then (true, s)
  else
    let r := isInBackoff s now
    (r.fst, applyOps s r.snd)

/-- Does a localStorage write touch the `daybound_ota_fail_count` key? -/
def touchesCount : FieldOp → Bool
  | .setCount _ => true
  | .removeCount => true
  | _ => false

/-- Does a localStorage write touch the `daybound_ota_fail_ts` key? -/
def touchesTs : FieldOp → Bool
  | .setTs _ => true
  | .removeTs => true
  | _ => false

/-- Claim C1: the shell router takes the fast path (immediate navigation to
the bundled entry point) if and only if the persisted `useRemote` flag is
not the string `"true"`, or the browser reports offline, or
`isInBackoff()` returns true; otherwise it takes the remote path. -/
theorem shellRouter_fast_path_iff (s : OtaStore) (onLine : Option Bool)
    (now : Nat) :
    (routeDecision s onLine now).fst = true ↔
      (¬ s.useRemote = some "true" ∨ onLine = some false ∨
        (isInBackoff s now).fst = true) := by
  unfold routeDecision
  by_cases h1 : s.useRemote = some "true"
  · rw [if_neg (not_not_intro h1)]
    by_cases h2 : onLine = some false
    · rw [if_pos h2]
      simp [h2]
    · rw [if_neg h2]
      simp [h1, h2]
  · rw [if_pos h1]
    simp [h1]

/-- Claim C3 is false as stated: with `failCount = 3`, `failTs = 0` and
`now = 300000` (so `now − failTimestamp` is exactly the 5-minute window),
`isInBackoff` returns `true`, although the claimed condition
`now − failTimestamp < 300000` fails — the code resets only when the
difference is strictly greater than the window. -/
theorem isInBackoff_boundary_counterexample :
    (isInBackoff ⟨none, none, some 3, some 0⟩ 300000).fst = true ∧
      ¬ (3 ≤ (3 : Nat) ∧ (300000 : Int) - (0 : Int) < 300000) := by
  decide

/-- Claim C3 (amended): `isInBackoff` returns true iff `failCount ≥ 3` and
`now − failTimestamp ≤ 300000` ms; when `failCount ≥ 3` and the window has
strictly elapsed (`now − failTimestamp > 300000`) it writes `failCount = 0`
as its only side effect and returns false. -/
theorem isInBackoff_characterization (s : OtaStore) (now : Nat) :
    ((isInBackoff s now).fst = true ↔
      (3 ≤ s.failCount.getD 0 ∧
        (now : Int) - (s.failTs.getD 0 : Int) ≤ 300000)) ∧
    (3 ≤ s.failCount.getD 0 →
      (now : Int) - (s.failTs.getD 0 : Int) > 300000 →
      isInBackoff s now = (false, [FieldOp.setCount 0]) ∧
        applyOps s (isInBackoff s now).snd = { s with failCount := some 0 }) := by
  unfold isInBackoff
  split_ifs with h1 h2
  · constructor
    · constructor
      · intro h
        exact absurd h (by decide)
      · intro h
        omega
    · intro hc _
      omega
  · constructor
    · constructor
      · intro h
        exact absurd h (by decide)
      · intro h
        omega
    · intro _ _
      exact ⟨rfl, rfl⟩
  · constructor
    · constructor
      · intro _
        omega
      · intro _
        rfl
    · intro _ hgt
      omega

/-- Witness for the amended claim C3 at `failCount = 3`, `failTs = 0`,
`now = 600000`: the window has elapsed, so the call returns false and
resets only `failCount`. -/
theorem isInBackoff_characterization_witness :
    isInBackoff ⟨none, none, some 3, some 0⟩ 600000
        = (false, [FieldOp.setCount 0]) ∧
      applyOps ⟨none, none, some 3, some 0⟩
          (isInBackoff ⟨none, none, some 3, some 0⟩ 600000).snd
        = ⟨none, none, some 0, some 0⟩ :=
  (isInBackoff_characterization ⟨none, none, some 3, some 0⟩ 600000).2
    (by decide) (by decide)

/-- Claim C8 is false as stated: the window-elapsed reset branch of
`isInBackoff` (with `failCount = 3`, `failTs = 0`, `now = 600000`) writes
the persisted `failCount` field without writing or removing
`failTimestamp`, which stays behind as `some 0`. -/
theorem failFields_not_written_together_counterexample :
    (isInBackoff ⟨none, none, some 3, some 0⟩ 600000).snd.any touchesCount
        = true ∧
      (isInBackoff ⟨none, none, some 3, some 0⟩ 600000).snd.any touchesTs
        = false ∧
      applyOps ⟨none, none, some 3, some 0⟩
          (isInBackoff ⟨none, none, some 3, some 0⟩ 600000).snd
        = ⟨none, none, some 0, some 0⟩ := by
  decide

/-- Claim C8 (amended): `recordFailure`, `clearFailures` and the checker's
success path write or remove `failCount` and `failTimestamp` together; the
only exception is `isInBackoff`, which performs either no write at all or
the lone `failCount = 0` reset write. -/
theorem failFields_write_discipline (s : OtaStore) (now : Nat)
    (version : String) :
    ((recordFailureOps s now).any touchesCount
        = (recordFailureOps s now).any touchesTs) ∧
      (clearFailuresOps.any touchesCount = clearFailuresOps.any touchesTs) ∧
      ((runCheckSuccessOps version).any touchesCount
        = (runCheckSuccessOps version).any touchesTs) ∧
      ((isInBackoff s now).snd = [] ∨
        (isInBackoff s now).snd = [FieldOp.setCount 0]) := by
  refine ⟨rfl, rfl, rfl, ?_⟩
  unfold isInBackoff
  split_ifs <;> simp

/-- Shell state on the cached-remote path: the persisted OTA store plus
the `settled` latch, whether `clearTimeout` ran, whether the loader was
hidden (frame kept visible) and whether `goToBundled()` navigated away. -/
structure ShellState where
  store : OtaStore
  settled : Bool
  timerCleared : Bool
  loaderHidden : Bool
  navigated : Bool
  deriving DecidableEq, Repr

/-- Embeds `settle(success)` from the shell's remote path: a no-op once settled;
otherwise latch, clear the timer, and either (success) clear the failure
counters and hide the loader, or (failure) record a failure at `now`,
remove the `useRemote` flag and navigate to the bundled entry point. -/
def settle (st : ShellState) (success : Bool) (now : Nat) : ShellState :=
  if st.settled then st
  else
    let st1 := { st with settled := true, timerCleared := true }
    if success then
      { st1 with
        store := applyOps st1.store clearFailuresOps,
        loaderHidden := true }
    else
      let s2 :=
        applyOp (applyOps st1.store (recordFailureOps st1.store now))
          FieldOp.removeUseRemote
      { st1 with store := s2, navigated := true }

/-- The three asynchronous signals that can reach the remote path:
the iframe `load` event, the iframe `error` event, and the 800 ms timer
callback (each failure signal carries its `Date.now()` reading). -/
inductive ShellEvent : Type where
  | load : ShellEvent
  | error : Nat → ShellEvent
  | timeout : Nat → ShellEvent
  deriving DecidableEq, Repr

/-- Dispatch one signal: `load` settles with success, `error` and the
timer settle with failure. -/
def shellStep (st : ShellState) : ShellEvent → ShellState
  | .load => settle st true 0
  | .error n => settle st false n
  | .timeout n => settle st false n

/-- Process the signals of one run in arrival order. -/
def runShell (st : ShellState) (es : List ShellEvent) : ShellState :=
  es.foldl shellStep st

theorem settle_settled (st : ShellState) (b : Bool) (n : Nat)
    (h : st.settled = true) : settle st b n = st := by
  unfold settle
  rw [h]
  rfl

theorem settle_sets_settled (st : ShellState) (b : Bool) (n : Nat) :
    (settle st b n).settled = true := by
  unfold settle
  by_cases h : st.settled = true
  · rw [if_pos h]
    exact h
  · rw [if_neg h]
    cases b <;> rfl

theorem shellStep_sets_settled (st : ShellState) (e : ShellEvent) :
    (shellStep st e).settled = true := by
  cases e with
  | load => exact settle_sets_settled st true 0
  | error n => exact settle_sets_settled st false n
  | timeout n => exact settle_sets_settled st false n

theorem runShell_settled (st : ShellState) (es : List ShellEvent)
    (h : st.settled = true) : runShell st es = st := by
  induction es with
  | nil => rfl
  | cons e t ih =>
    have hstep : shellStep st e = st := by
      cases e with
      | load => exact settle_settled st true 0 h
      | error n => exact settle_settled st false n h
      | timeout n => exact settle_settled st false n h
    show runShell (shellStep st e) t = st
    rw [hstep]
    exact ih

theorem settle_success_eq (st : ShellState) (hs : st.settled = false)
    (n : Nat) :
    settle st true n =
      { st with
        settled := true,
        timerCleared := true,
        store := { st.store with failCount := none, failTs := none },
        loaderHidden := true } := by
  unfold settle
  rw [hs]
  rfl

theorem settle_failure_eq (st : ShellState) (hs : st.settled = false)
    (n : Nat) :
    settle st false n =
      { st with
        settled := true,
        timerCleared := true,
        store := { st.store with
          failCount := some (st.store.failCount.getD 0 + 1),
          failTs := some n,
          useRemote := none },
        navigated := true } := by
  unfold settle
  rw [hs]
  rfl

/-- Claim C2: on the remote path, the first signal alone decides the run.
If `load` arrives first, the frame is kept (no navigation), the loader is
hidden and both failure counters are cleared; if the timer or an `error`
arrives first, exactly one failure is recorded (`failCount` incremented,
`failTimestamp` set to that signal's time), the `useRemote` flag is
removed and the shell navigates to the bundled entry point.  Exactly one
of the two outcomes takes effect no matter which further signals fire. -/
theorem shell_remote_path_settles_once (st : ShellState)
    (hs : st.settled = false) (e : ShellEvent) (es : List ShellEvent) :
    runShell st (e :: es) = shellStep st e ∧
      (runShell st (e :: es)).settled = true ∧
      (e = ShellEvent.load →
        (runShell st (e :: es)).store.failCount = none ∧
          (runShell st (e :: es)).store.failTs = none ∧
          (runShell st (e :: es)).store.useRemote = st.store.useRemote ∧
          (runShell st (e :: es)).navigated = st.navigated ∧
          (runShell st (e :: es)).loaderHidden = true) ∧
      (∀ n, e = ShellEvent.error n ∨ e = ShellEvent.timeout n →
        (runShell st (e :: es)).store.failCount
            = some (st.store.failCount.getD 0 + 1) ∧
          (runShell st (e :: es)).store.failTs = some n ∧
          (runShell st (e :: es)).store.useRemote = none ∧
          (runShell st (e :: es)).navigated = true) := by
  have hrun : runShell st (e :: es) = shellStep st e := by
    show runShell (shellStep st e) es = shellStep st e
    exact runShell_settled _ _ (shellStep_sets_settled st e)
  refine ⟨hrun, ?_, ?_, ?_⟩
  · rw [hrun]
    exact shellStep_sets_settled st e
  · intro he
    subst he
    rw [hrun]
    have : shellStep st ShellEvent.load = settle st true 0 := rfl
    rw [this, settle_success_eq st hs 0]
    exact ⟨rfl, rfl, rfl, rfl, rfl⟩
  · intro n he
    have hfail : shellStep st e = settle st false n := by
      rcases he with he | he <;> subst he <;> rfl
    rw [hrun, hfail, settle_failure_eq st hs n]
    exact ⟨rfl, rfl, rfl, rfl⟩

/-- Witness for claim C2: a concrete run where the timer fires first at
`now = 7` and a late `load` follows — the failure outcome stands:
`failCount` goes from 1 to 2, `failTimestamp` becomes 7, the flag is
removed and the shell navigates to the bundled page. -/
theorem shell_remote_path_settles_once_witness :
    (runShell ⟨⟨some "true", none, some 1, some 5⟩, false, false, false, false⟩
        [ShellEvent.timeout 7, ShellEvent.load]).store.failCount = some 2 ∧
      (runShell ⟨⟨some "true", none, some 1, some 5⟩, false, false, false, false⟩
        [ShellEvent.timeout 7, ShellEvent.load]).store.useRemote = none ∧
      (runShell ⟨⟨some "true", none, some 1, some 5⟩, false, false, false, false⟩
        [ShellEvent.timeout 7, ShellEvent.load]).navigated = true := by
  obtain ⟨h1, h2, h3, h4⟩ :=
    (shell_remote_path_settles_once
      ⟨⟨some "true", none, some 1, some 5⟩, false, false, false, false⟩
      rfl (ShellEvent.timeout 7) [ShellEvent.load]).2.2.2 7 (Or.inr rfl)
  exact ⟨h1, h3, h4⟩

/-- The key–value payload of a bridge message (`data` objects). -/
abbrev GetData := List (String × JsValue)

/-- The `daybound-*` tagged bridge messages exchanged over postMessage. -/
inductive BridgeMsg : Type where
  | iframeReady : BridgeMsg
  | bridgeReady : BridgeMsg
  | storageGet : String → List String → BridgeMsg
  | storageSet : String → GetData → BridgeMsg
  | storageResult : String → GetData → BridgeMsg
  | storageSetAck : String → BridgeMsg
  | storageChanged : GetData → BridgeMsg
  deriving DecidableEq, Repr

/-- The `event.source` of a message as seen by the client: either exactly
`window.parent` or some other window. -/
inductive MsgSource : Type where
  | parentWin : MsgSource
  | otherWin : MsgSource
  deriving DecidableEq, Repr

/-- Observable state of a `StorageBridgeClient`.  Pending continuations
are modelled by a caller-chosen request token per correlation id;
`resolved` logs, in order, which request token was resolved with which
data, and `changed` logs the change sets delivered to listeners. -/
structure ClientState where
  pending : List (String × Nat)
  ready : Bool
  resolved : List (Nat × GetData)
  changed : List GetData
  deriving DecidableEq, Repr

/-- Client construction: empty pending table, not ready. -/
def initClient : ClientState :=
  { pending := [], ready := false, resolved := [], changed := [] }

/-- Embeds `StorageBridgeClient.get`: register the continuation under a fresh
correlation id (the posted `daybound-storage-get` request itself leaves
the client state unchanged). -/
def clientGet (s : ClientState) (id : String) (tok : Nat) : ClientState :=
  { s with pending := mapSet s.pending id tok }

/-- Embeds `StorageBridgeClient.set`: same registration as `get`, its
continuation resolving with `{}` (modelled as `[]`). -/
def clientSet (s : ClientState) (id : String) (tok : Nat) : ClientState :=
  { s with pending := mapSet s.pending id tok }

/-- Embeds `StorageBridgeClient.handleMessage`: drop anything whose source is not
exactly `window.parent` or that carries no string-typed `type` (`none`);
then dispatch on the tag.  Responses resolve and delete the pending entry
for their id when one exists and are dropped otherwise; change events go
to every listener; request/handshake tags addressed to the host are
ignored. -/
def handleMessage (s : ClientState) (src : MsgSource) (m : Option BridgeMsg) :
    ClientState :=
  if src ≠ MsgSource.parentWin then s
  else
    match m with
    | none => s
    | some msg =>
      match msg with
      | .bridgeReady => { s with ready := true }
      | .storageResult id data =>
        match mapGet s.pending id with
        | some tok =>
          { s with
            resolved := s.resolved ++ [(tok, data)],
            pending := mapDelete s.pending id }
        | none => s
      | .storageSetAck id =>
        match mapGet s.pending id with
        | some tok =>
          { s with
            resolved := s.resolved ++ [(tok, [])],
            pending := mapDelete s.pending id }
        | none => s
      | .storageChanged ch => { s with changed := s.changed ++ [ch] }
      | _ => s

theorem handleMessage_result_pending (s : ClientState) (id : String)
    (data : GetData) (tok : Nat) (h : mapGet s.pending id = some tok) :
    handleMessage s MsgSource.parentWin (some (BridgeMsg.storageResult id data))
      = { s with
          resolved := s.resolved ++ [(tok, data)],
          pending := mapDelete s.pending id } := by
  have h0 : handleMessage s MsgSource.parentWin
      (some (BridgeMsg.storageResult id data))
      = (match mapGet s.pending id with
        | some tok =>
          ({ s with
            resolved := s.resolved ++ [(tok, data)],
            pending := mapDelete s.pending id } : ClientState)
        | none => s) := rfl
  rw [h0, h]

theorem handleMessage_result_unknown (s : ClientState) (id : String)
    (data : GetData) (h : mapGet s.pending id = none) :
    handleMessage s MsgSource.parentWin (some (BridgeMsg.storageResult id data))
      = s := by
  have h0 : handleMessage s MsgSource.parentWin
      (some (BridgeMsg.storageResult id data))
      = (match mapGet s.pending id with
        | some tok =>
          ({ s with
            resolved := s.resolved ++ [(tok, data)],
            pending := mapDelete s.pending id } : ClientState)
        | none => s) := rfl
  rw [h0, h]

theorem handleMessage_setAck_unknown (s : ClientState) (id : String)
    (h : mapGet s.pending id = none) :
    handleMessage s MsgSource.parentWin (some (BridgeMsg.storageSetAck id))
      = s := by
  have h0 : handleMessage s MsgSource.parentWin
      (some (BridgeMsg.storageSetAck id))
      = (match mapGet s.pending id with
        | some tok =>
          ({ s with
            resolved := s.resolved ++ [(tok, [])],
            pending := mapDelete s.pending id } : ClientState)
        | none => s) := rfl
  rw [h0, h]

/-- Claim C5: an inbound response whose correlation id is pending resolves
exactly that id's continuation with exactly that response's data and
deletes the table entry, so a repeat of the same response is a no-op; a
response (result or set-ack) whose id is unknown leaves the whole client
state unchanged. -/
theorem bridge_client_response_routing (s : ClientState) (id : String)
    (tok : Nat) (data : GetData) :
    (mapGet s.pending id = some tok →
      (handleMessage s MsgSource.parentWin
          (some (BridgeMsg.storageResult id data))).resolved
          = s.resolved ++ [(tok, data)] ∧
        (handleMessage s MsgSource.parentWin
          (some (BridgeMsg.storageResult id data))).pending
          = mapDelete s.pending id ∧
        mapGet (handleMessage s MsgSource.parentWin
          (some (BridgeMsg.storageResult id data))).pending id = none ∧
        handleMessage
            (handleMessage s MsgSource.parentWin
              (some (BridgeMsg.storageResult id data)))
            MsgSource.parentWin (some (BridgeMsg.storageResult id data))
          = handleMessage s MsgSource.parentWin
              (some (BridgeMsg.storageResult id data))) ∧
      (mapGet s.pending id = none →
        handleMessage s MsgSource.parentWin
            (some (BridgeMsg.storageResult id data)) = s ∧
          handleMessage s MsgSource.parentWin
            (some (BridgeMsg.storageSetAck id)) = s) := by
  constructor
  · intro h
    have h1 := handleMessage_result_pending s id data tok h
    refine ⟨by rw [h1], by rw [h1], ?_, ?_⟩
    · rw [h1]
      exact mapGet_mapDelete s.pending id
    · rw [h1]
      apply handleMessage_result_unknown
      exact mapGet_mapDelete s.pending id
  · intro h
    exact ⟨handleMessage_result_unknown s id data h,
      handleMessage_setAck_unknown s id h⟩

/-- Witness for claim C5 with one in-flight request `("a" ↦ token 1)`:
the matching response resolves token 1 with its own payload, empties the
table, and a duplicate response or an unknown-id response changes
nothing. -/
theorem bridge_client_response_routing_witness :
    (handleMessage ⟨[("a", 1)], true, [], []⟩ MsgSource.parentWin
        (some (BridgeMsg.storageResult "a" [("k", JsValue.num 4)]))).resolved
        = [(1, [("k", JsValue.num 4)])] ∧
      handleMessage ⟨[("a", 1)], true, [], []⟩ MsgSource.parentWin
        (some (BridgeMsg.storageResult "b" [])) = ⟨[("a", 1)], true, [], []⟩ := by
  constructor
  · have h := ((bridge_client_response_routing ⟨[("a", 1)], true, [], []⟩
      "a" 1 [("k", JsValue.num 4)]).1 (by decide)).1
    rw [h]
    rfl
  · exact ((bridge_client_response_routing ⟨[("a", 1)], true, [], []⟩
      "b" 1 []).2 (by decide)).1

/-- The `event.source` of a message as seen by the shell host: either
exactly `frame.contentWindow` or some other window. -/
inductive HostSource : Type where
  | frameWin : HostSource
  | otherWin : HostSource
  deriving DecidableEq, Repr

/-- Backing stores available to the shell host: `chrome.storage.sync`
(structured values) when the chrome APIs exist, else the shell's own
`localStorage` (JSON strings). -/
structure HostState where
  hasChrome : Bool
  chromeStore : List (String × JsValue)
  localStore : List (String × String)
  deriving DecidableEq, Repr

/-- Host `GET` handler: collect the requested keys that are present
(chrome branch), or that are present and `JSON.parse` without throwing
(localStorage branch, where a per-key parse error skips that key). -/
def hostGet (h : HostState) (keys : List String) : GetData :=
  if h.hasChrome then
    keys.foldl
      (fun acc k =>
        match mapGet h.chromeStore k with
        | some v => acc ++ [(k, v)]
        | none => acc) []
  else
    keys.foldl
      (fun acc k =>
        match mapGet h.localStore k with
        | some raw =>
          match parse raw with
          | some jv => acc ++ [(k, jv)]
          | none => acc
        | none => acc) []

/-- Host `SET` handler: write every pair of the payload into the backing
store (stringified in the localStorage branch). -/
def hostSet (h : HostState) (data : GetData) : HostState :=
  if h.hasChrome then
    { h with chromeStore := data.foldl (fun st kv => mapSet st kv.1 kv.2) h.chromeStore }
  else
    { h with
      localStore :=
        data.foldl (fun st kv => mapSet st kv.1 (stringify kv.2)) h.localStore }

/-- The shell host's `message` listener: drop anything whose source is
not exactly the remote frame's content window or without a string `type`;
acknowledge the handshake, answer `GET`s with a tagged result, apply
`SET`s and acknowledge with the same correlation id; every other tag is
ignored.  Returns the new host state and the messages posted back to the
frame. -/
def hostStep (h : HostState) (src : HostSource) (m : Option BridgeMsg) :
    HostState × List BridgeMsg :=
  if src ≠ HostSource.frameWin then (h, [])
  else
    match m with
    | none => (h, [])
    | some msg =>
      match msg with
      | .iframeReady => (h, [BridgeMsg.bridgeReady])
      | .storageGet id keys => (h, [BridgeMsg.storageResult id (hostGet h keys)])
      | .storageSet id data => (hostSet h data, [BridgeMsg.storageSetAck id])
      | _ => (h, [])

/-- Claim C9: a message failing the source check is silently dropped on
both sides — the client ignores anything not from `window.parent`
(state unchanged, and its handler never posts a reply), and the host
ignores anything not from the frame's content window (state unchanged, no
response posted). -/
theorem source_guard_drops_messages (s : ClientState) (src : MsgSource)
    (m : Option BridgeMsg) (h : HostState) (hsrc : HostSource)
    (m2 : Option BridgeMsg) (hc : src ≠ MsgSource.parentWin)
    (hh : hsrc ≠ HostSource.frameWin) :
    handleMessage s src m = s ∧ hostStep h hsrc m2 = (h, []) := by
  constructor
  · unfold handleMessage
    rw [if_pos hc]
  · unfold hostStep
    rw [if_pos hh]

/-- Witness for claim C9: a foreign-window `bridge-ready` spoof at the
client and a foreign-window `GET` at the host are both dropped without
any state change or reply. -/
theorem source_guard_drops_messages_witness :
    handleMessage ⟨[("a", 1)], false, [], []⟩ MsgSource.otherWin
        (some BridgeMsg.bridgeReady) = ⟨[("a", 1)], false, [], []⟩ ∧
      hostStep ⟨false, [], [("k", "5")]⟩ HostSource.otherWin
        (some (BridgeMsg.storageGet "x" ["k"]))
        = (⟨false, [], [("k", "5")]⟩, []) :=
  source_guard_drops_messages ⟨[("a", 1)], false, [], []⟩ MsgSource.otherWin
    (some BridgeMsg.bridgeReady) ⟨false, [], [("k", "5")]⟩ HostSource.otherWin
    (some (BridgeMsg.storageGet "x" ["k"])) (by decide) (by decide)

/-- The three storage strategies of `detectStorageStrategy`. -/
inductive StorageStrategy : Type where
  | chrome : StorageStrategy
  | bridge : StorageStrategy
  | local : StorageStrategy
  deriving DecidableEq, Repr

/-- Embeds `detectStorageStrategy()`: direct chrome store wins, else an embedded
context bridges, else localStorage. -/
def detectStorageStrategy (hasChromeStorage isInsideIframe : Bool) :
    StorageStrategy :=
  if hasChromeStorage then StorageStrategy.chrome
  else if isInsideIframe then StorageStrategy.bridge
  else StorageStrategy.local

/-- The persistent-state module's process-wide singletons: the memoized
`_strategy` and the memoized `_bridgeReady` handshake outcome. -/
structure AppProc where
  strategy : Option StorageStrategy
  bridgeReady : Option Bool
  deriving DecidableEq, Repr

/-- Embeds `getStrategy()`: detect on first call, then return the memo. -/
def getStrategy (hasChromeStorage isInsideIframe : Bool) (p : AppProc) :
    StorageStrategy × AppProc :=
  match p.strategy with
  | some s => (s, p)
  | none =>
    let s := detectStorageStrategy hasChromeStorage isInsideIframe
    (s, { p with strategy := some s })

/-- Embeds `ensureBridge()`: return the memoized outcome if the handshake already
ran; otherwise run `waitForReady()`, whose 500 ms race is abstracted to
`ackWithin500` (true iff the host's ready-ack arrived before the timeout
rejected the promise).  A rejected handshake memoizes `false` and
downgrades `_strategy` to the local fallback. -/
def ensureBridge (ackWithin500 : Bool) (p : AppProc) : Bool × AppProc :=
  match p.bridgeReady with
  | some b => (b, p)
  | none =>
    if ackWithin500 then (true, { p with bridgeReady := some true })
    else
      (false,
        { p with
          strategy := some StorageStrategy.local,
          bridgeReady := some false })

/-- The operations that touch the two singletons over a process
lifetime. -/
inductive ProcOp : Type where
  | getStrat : Bool → Bool → ProcOp
  | ensure : Bool → ProcOp
  deriving DecidableEq, Repr

def procStep (p : AppProc) : ProcOp → AppProc
  | .getStrat hc ii => (getStrategy hc ii p).snd
  | .ensure ack => (ensureBridge ack p).snd

def runProc (p : AppProc) (ops : List ProcOp) : AppProc :=
  ops.foldl procStep p

theorem runProc_local_stable (p : AppProc)
    (h1 : p.strategy = some StorageStrategy.local)
    (h2 : p.bridgeReady = some false) (ops : List ProcOp) :
    (runProc p ops).strategy = some StorageStrategy.local ∧
      (runProc p ops).bridgeReady = some false := by
  induction ops generalizing p with
  | nil => exact ⟨h1, h2⟩
  | cons op t ih =>
    have hstep : procStep p op = p := by
      cases op with
      | getStrat hc ii =>
        show (getStrategy hc ii p).snd = p
        rw [getStrategy, h1]
      | ensure ack =>
        show (ensureBridge ack p).snd = p
        rw [ensureBridge, h2]
    have hfold : runProc p (op :: t) = runProc (procStep p op) t := rfl
    rw [hfold, hstep]
    exact ih p h1 h2

/-- Claim C6: when no ready-ack arrives within 500 ms of construction the
handshake promise rejects (`ensureBridge` reports `false`), and the
persistent-state layer permanently downgrades its memoized strategy to
the local fallback: after the failed handshake, every further
`getStrategy`/`ensureBridge` call over the rest of the process lifetime
leaves the strategy at `local`. -/
theorem bridge_timeout_downgrades_strategy (p : AppProc)
    (hb : p.bridgeReady = none) :
    (ensureBridge false p).fst = false ∧
      ((ensureBridge false p).snd).strategy = some StorageStrategy.local ∧
      ∀ ops : List ProcOp,
        (runProc ((ensureBridge false p).snd) ops).strategy
          = some StorageStrategy.local := by
  have he : ensureBridge false p
      = (false,
        { p with
          strategy := some StorageStrategy.local,
          bridgeReady := some false }) := by
    rw [ensureBridge, hb]
    rfl
  refine ⟨by rw [he], by rw [he], ?_⟩
  intro ops
  rw [he]
  exact (runProc_local_stable _ rfl rfl ops).1

/-- Witness for claim C6: a fresh process in an iframe context whose
handshake times out stays on the local fallback even after a later
(would-be successful) `ensureBridge` and a `getStrategy` call. -/
theorem bridge_timeout_downgrades_strategy_witness :
    (runProc (ensureBridge false ⟨some StorageStrategy.bridge, none⟩).snd
        [ProcOp.ensure true, ProcOp.getStrat false true]).strategy
      = some StorageStrategy.local :=
  (bridge_timeout_downgrades_strategy ⟨some StorageStrategy.bridge, none⟩
    rfl).2.2 [ProcOp.ensure true, ProcOp.getStrat false true]

/-- The backend the hook's `storageGet` reads from, per resolved
strategy: the direct chrome store, a bridge `GET` response map, or
localStorage (raw JSON strings). -/
inductive Backend : Type where
  | chromeB : List (String × JsValue) → Backend
  | bridgeB : List (String × JsValue) → Backend
  | localB : List (String × String) → Backend
  deriving DecidableEq, Repr

/-- The local branch of `storageGet` applied to the raw
`localStorage.getItem` result: `saved ? JSON.parse(saved) : null` (an
absent key or the empty string is falsy and yields `null`; a parse
failure throws). -/
def storageGetLocalRaw (saved : Option String) : Except Unit JsValue :=
  match saved with
  | none => Except.ok JsValue.null
  | some s =>
    if s = "" then Except.ok JsValue.null
    else
      match parse s with
      | some v => Except.ok v
      | none => Except.error ()

/-- Embeds `storageGet(key, strategy)`: chrome and bridge return
`result?.[key] ?? null`; the local branch reads
`localStorage.getItem(key)` through `storageGetLocalRaw`. -/
def storageGet (b : Backend) (key : String) : Except Unit JsValue :=
  match b with
  | .chromeB st => Except.ok ((mapGet st key).getD JsValue.null)
  | .bridgeB resp => Except.ok ((mapGet resp key).getD JsValue.null)
  | .localB st => storageGetLocalRaw (mapGet st key)

/-- Embeds `storageSet(key, value)` under the local strategy:
`localStorage.setItem(key, JSON.stringify(value))`. -/
def storageSetLocal (st : List (String × String)) (key : String)
    (v : JsValue) : List (String × String) :=
  mapSet st key (stringify v)

/-- First render of `usePersistentState(key, initialValue)`: the hook
synchronously yields `(initialValue, isLoading = true)`. -/
def initialRender (init : JsValue) : JsValue × Bool :=
  (init, true)

/-- The `(state, loading)` pair after the hook's `load()` effect runs:
if the effect was cancelled by teardown nothing changes; otherwise the
state is replaced only when the read succeeds with a non-null value, and
`loading` becomes false on every non-cancelled path, read errors
included. -/
def usePersistentLoad (b : Backend) (key : String) (init : JsValue)
    (cancelled : Bool) : JsValue × Bool :=
  if cancelled then (init, true)
  else
    match storageGet b key with
    | Except.ok v => (if v = JsValue.null then init else v, false)
    | Except.error _ => (init, false)

/-- Claim C7: the first use of the hook yields `initialValue` with
`isLoading = true`; the asynchronous load replaces the value only when
the backend read returns a non-null value, leaves `initialValue`
otherwise, and — unless cancelled by teardown — always ends with
`isLoading = false`, backend read errors included. -/
theorem usePersistentState_load_behavior (b : Backend) (key : String)
    (init : JsValue) :
    initialRender init = (init, true) ∧
      (usePersistentLoad b key init false).snd = false ∧
      (∀ v, storageGet b key = Except.ok v → v ≠ JsValue.null →
        (usePersistentLoad b key init false).fst = v) ∧
      (storageGet b key = Except.ok JsValue.null →
        usePersistentLoad b key init false = (init, false)) ∧
      (storageGet b key = Except.error () →
        usePersistentLoad b key init false = (init, false)) ∧
      usePersistentLoad b key init true = (init, true) := by
  refine ⟨rfl, ?_, ?_, ?_, ?_, rfl⟩
  · unfold usePersistentLoad
    rw [if_neg (by decide)]
    cases storageGet b key with
    | ok v => rfl
    | error e => rfl
  · intro v hv hnn
    unfold usePersistentLoad
    rw [if_neg (by decide), hv]
    simp [hnn]
  · intro hv
    unfold usePersistentLoad
    rw [if_neg (by decide), hv]
    rfl
  · intro hv
    unfold usePersistentLoad
    rw [if_neg (by decide), hv]

/-- Witness for claim C7 on an empty localStorage backend: the read finds
nothing (null), so the hook keeps the initial value and clears the
loading flag. -/
theorem usePersistentState_load_behavior_witness :
    usePersistentLoad (Backend.localB []) "k" (JsValue.bool false) false
      = (JsValue.bool false, false) :=
  (usePersistentState_load_behavior (Backend.localB []) "k"
    (JsValue.bool false)).2.2.2.1 rfl

/-- Claim C10: under the local-fallback strategy, a `setValue(v)` followed
by a fresh load of the same key yields `v` again for every non-null `v`
(its JSON serialization parses back to itself), but for `v = null` — or
whenever the stored string parses to `null` or is empty — the load yields
`initialValue` instead: a stored null is indistinguishable from an absent
key. -/
theorem local_roundtrip_null_absent (st : List (String × String))
    (key : String) (v init : JsValue) :
    (v ≠ JsValue.null →
      usePersistentLoad (Backend.localB (storageSetLocal st key v)) key init
          false = (v, false)) ∧
      (v = JsValue.null →
        usePersistentLoad (Backend.localB (storageSetLocal st key v)) key init
          false = (init, false)) ∧
      (∀ raw, mapGet st key = some raw →
        (parse raw = some JsValue.null ∨ raw = "") →
        usePersistentLoad (Backend.localB st) key init false
          = (init, false)) := by
  have hget : storageGet (Backend.localB (storageSetLocal st key v)) key
      = Except.ok v := by
    show storageGetLocalRaw (mapGet (mapSet st key (stringify v)) key)
      = Except.ok v
    rw [mapGet_mapSet]
    simp only [storageGetLocalRaw]
    rw [if_neg (stringify_ne_empty v), parse_stringify]
  refine ⟨?_, ?_, ?_⟩
  · intro hnn
    unfold usePersistentLoad
    rw [if_neg (by decide), hget]
    simp [hnn]
  · intro hn
    subst hn
    unfold usePersistentLoad
    rw [if_neg (by decide), hget]
    rfl
  · intro raw hraw hcase
    unfold usePersistentLoad
    have hget2 : storageGet (Backend.localB st) key = Except.ok JsValue.null := by
      show storageGetLocalRaw (mapGet st key) = Except.ok JsValue.null
      rw [hraw]
      simp only [storageGetLocalRaw]
      rcases hcase with hc | hc
      · by_cases hemp : raw = ""
        · rw [if_pos hemp]
        · rw [if_neg hemp, hc]
      · rw [if_pos hc]
    rw [if_neg (by decide), hget2]
    rfl

/-- Witness for claim C10: storing `true` under key `"k"` in an empty
localStorage and re-loading yields `true` again with loading cleared. -/
theorem local_roundtrip_null_absent_witness :
    usePersistentLoad
        (Backend.localB (storageSetLocal [] "k" (JsValue.bool true))) "k"
        (JsValue.num 0) false
      = (JsValue.bool true, false) :=
  (local_roundtrip_null_absent [] "k" (JsValue.bool true) (JsValue.num 0)).1
    (by decide)

/-- A JavaScript number as produced by `Number(segment)`: either NaN or
an integral value.  (Version-string segments contain no `.`, so
fractional results cannot arise; hex/exponent forms are outside the
modelled grammar.) -/
inductive JsNum : Type where
  | nan : JsNum
  | num : Int → JsNum
  deriving DecidableEq, Repr

/-- Strip leading and trailing whitespace, as `Number()` does. -/
def trimChars (cs : List Char) : List Char :=
  ((cs.dropWhile Char.isWhitespace).reverse.dropWhile Char.isWhitespace).reverse

/-- Embeds `Number()` on one dot-free, trimmed segment: empty → 0, optionally
signed digits → that integer, anything else → NaN. -/
def jsNumberChars (cs : List Char) : JsNum :=
  match cs with
  | [] => JsNum.num 0
  | c :: rest =>
    if c = '-' then
      if !rest.isEmpty && rest.all Char.isDigit then
        JsNum.num (-(charsToNat rest : Int))
      else JsNum.nan
    else if c = '+' then
      if !rest.isEmpty && rest.all Char.isDigit then
        JsNum.num ((charsToNat rest : Int))
      else JsNum.nan
    else if (c :: rest).all Char.isDigit then
      JsNum.num ((charsToNat (c :: rest) : Int))
    else JsNum.nan

/-- Embeds `String.prototype.split(".")`. -/
def splitDots : List Char → List (List Char)
  | [] => [[]]
  | c :: rest =>
    let r := splitDots rest
    if c = '.' then [] :: r
    else
      match r with
      | [] => [[c]]
      | seg :: segs => (c :: seg) :: segs

/-- Embeds `a.split(".").map(Number)`. -/
def parseSegs (s : String) : List JsNum :=
  (splitDots s.data).map (fun seg => jsNumberChars (trimChars seg))

/-- JavaScript `>` on numbers: false whenever either side is NaN. -/
def jsGt : JsNum → JsNum → Bool
  | JsNum.num x, JsNum.num y => decide (x > y)
  | _, _ => false

/-- JavaScript `<` on numbers: false whenever either side is NaN. -/
def jsLt : JsNum → JsNum → Bool
  | JsNum.num x, JsNum.num y => decide (x < y)
  | _, _ => false

/-- Embeds `pa[i] ?? 0`: the `i`-th parsed segment, 0 when out of range. -/
def segGet (l : List JsNum) (i : Nat) : JsNum :=
  match l, i with
  | [], _ => JsNum.num 0
  | x :: _, 0 => x
  | _ :: t, i + 1 => segGet t i

/-- One iteration of the comparison loop at index `i`
(`va = pa[i] ?? 0`, `vb = pb[i] ?? 0`): `some r` models an early
`return r`, `none` falls through to the next index. -/
def semverStep (pa pb : List JsNum) (i : Nat) : Option Int :=
  if jsGt (segGet pa i) (segGet pb i) then some 1
  else if jsLt (segGet pa i) (segGet pb i) then some (-1)
  else none

/-- Embeds `compareSemver` from `otaConfig.ts`: loop over indices 0, 1, 2 with
early return, final result 0. -/
def compareSemver (a b : String) : Int :=
  match semverStep (parseSegs a) (parseSegs b) 0 with
  | some r => r
  | none =>
    match semverStep (parseSegs a) (parseSegs b) 1 with
    | some r => r
    | none =>
      match semverStep (parseSegs a) (parseSegs b) 2 with
      | some r => r
      | none => 0

/-- Spec-level single comparison: 1, −1 or 0 (NaN compares neither
greater nor less, hence 0 — "acts as equal"). -/
def jsCmp (x y : JsNum) : Int :=
  if jsGt x y then 1 else if jsLt x y then -1 else 0

/-- Spec-level parsing of a version string into its three compared
components (`pa[i] ?? 0`). -/
def parseTriple (s : String) : JsNum × JsNum × JsNum :=
  (segGet (parseSegs s) 0, segGet (parseSegs s) 1, segGet (parseSegs s) 2)

/-- Modelled from the amended claim's words: lexicographic comparison of
the three components, short-circuiting on the first strict difference. -/
def semverSpecCompare (x y : JsNum × JsNum × JsNum) : Int :=
  if jsCmp x.1 y.1 = 0 then
    (if jsCmp x.2.1 y.2.1 = 0 then jsCmp x.2.2 y.2.2 else jsCmp x.2.1 y.2.1)
  else jsCmp x.1 y.1

theorem semverStep_eq (pa pb : List JsNum) (i : Nat) :
    semverStep pa pb i =
      (if jsCmp (segGet pa i) (segGet pb i) = 0 then none
      else some (jsCmp (segGet pa i) (segGet pb i))) := by
  unfold semverStep jsCmp
  cases h1 : jsGt (segGet pa i) (segGet pb i) with
  | false =>
    cases h2 : jsLt (segGet pa i) (segGet pb i) with
    | false => simp [h1, h2]
    | true => simp [h1, h2]
  | true => simp [h1]

theorem jsCmp_range (x y : JsNum) :
    jsCmp x y = 1 ∨ jsCmp x y = 0 ∨ jsCmp x y = -1 := by
  unfold jsCmp
  cases h1 : jsGt x y with
  | true => simp
  | false =>
    cases h2 : jsLt x y with
    | true => simp
    | false => simp

/-- Claim C4 is false as stated: `"x"` is a non-numeric segment, yet
`compareSemver "x.2.3" "1.2.3" = 0` while treating that segment as 0
gives `compareSemver "0.2.3" "1.2.3" = -1` — `Number("x")` is NaN, and
NaN compares neither greater nor less, so the loop falls through as if
the segments were equal instead of degrading to 0. -/
theorem compareSemver_nan_counterexample :
    compareSemver "x.2.3" "1.2.3" = 0 ∧ compareSemver "0.2.3" "1.2.3" = -1 := by
  decide

/-- Claim C4 (amended): `compareSemver` parses each string into three
components where a missing or empty segment is 0 and a non-numeric
segment is NaN; it compares major, then minor, then patch,
short-circuiting on the first strict difference, with NaN comparing
neither greater nor less (so such a position acts as equal); it never
throws, always returning 1, 0 or −1. -/
theorem compareSemver_spec (a b : String) :
    compareSemver a b = semverSpecCompare (parseTriple a) (parseTriple b) ∧
      (compareSemver a b = 1 ∨ compareSemver a b = 0 ∨
        compareSemver a b = -1) := by
  have hspec : semverSpecCompare (parseTriple a) (parseTriple b)
      = (if jsCmp (segGet (parseSegs a) 0) (segGet (parseSegs b) 0) = 0 then
          (if jsCmp (segGet (parseSegs a) 1) (segGet (parseSegs b) 1) = 0 then
            jsCmp (segGet (parseSegs a) 2) (segGet (parseSegs b) 2)
          else jsCmp (segGet (parseSegs a) 1) (segGet (parseSegs b) 1))
        else jsCmp (segGet (parseSegs a) 0) (segGet (parseSegs b) 0)) := rfl
  have hmain : compareSemver a b
      = semverSpecCompare (parseTriple a) (parseTriple b) := by
    rw [hspec]
    unfold compareSemver
    rw [semverStep_eq, semverStep_eq, semverStep_eq]
    generalize jsCmp (segGet (parseSegs a) 0) (segGet (parseSegs b) 0) = c0
    generalize jsCmp (segGet (parseSegs a) 1) (segGet (parseSegs b) 1) = c1
    generalize jsCmp (segGet (parseSegs a) 2) (segGet (parseSegs b) 2) = c2
    by_cases h0 : c0 = 0 <;> by_cases h1 : c1 = 0 <;> by_cases h2 : c2 = 0 <;>
      simp [h0, h1, h2]
  refine ⟨hmain, ?_⟩
  rw [hmain]
  unfold semverSpecCompare
  by_cases h0 : jsCmp (parseTriple a).1 (parseTriple b).1 = 0
  · rw [if_pos h0]
    by_cases h1 : jsCmp (parseTriple a).2.1 (parseTriple b).2.1 = 0
    · rw [if_pos h1]
      exact jsCmp_range _ _
    · rw [if_neg h1]
      exact jsCmp_range _ _
  · rw [if_neg h0]
    exact jsCmp_range _ _
